import Mathlib

/-!
Verification development for the AetheroWeb-v1 session/thread and
memory-logging data flow: a shallow embedding of the thread store
(browser localStorage keyed by generated thread ids), the chat gateway
route, the memory-log sink route, the audit stub route, and the
reflection summarizer, together with theorems about their behaviour.
-/

/- JavaScript string primitives used by the embedded code. -/

/-- Embeds JS String.prototype.startsWith: code-unit-wise prefix test. -/
def jsStartsWith (s p : String) : Bool :=
  p.data.isPrefixOf s.data

/-- Embeds JS string slice on non-negative indices: characters of the
half-open range from a to b. The source only calls it as slice(0, 50). -/
def jsSlice (s : String) (a b : Nat) : String :=
  String.mk ((s.data.drop a).take (b - a))

/-- Embeds JS Array.prototype.join with a separator string. -/
def jsJoin (sep : String) : List String → String
  | [] => ""
  | [x] => x
  | x :: y :: rest => x ++ sep ++ jsJoin sep (y :: rest)

/-- Embeds JS String.prototype.replace with a plain-string pattern and
empty replacement: removes the first occurrence of the pattern. -/
def removeFirstAux (pat : List Char) : List Char → List Char
  | [] => []
  | c :: cs => if pat.isPrefixOf (c :: cs) then (c :: cs).drop pat.length
               else c :: removeFirstAux pat cs

/-- String-level wrapper for removeFirstAux. -/
def removeFirst (s pat : String) : String :=
  String.mk (removeFirstAux pat.data s.data)

/-- Embeds the JS or-default idiom used in the source as
(value or fallback): undefined and the empty string fall back. -/
def jsOrStr (o : Option String) (fallback : String) : String :=
  match o with
  | some s => if s = "" then fallback else s
  | none => fallback

/- The Message data model of src/lib/threadManager.ts. -/

/-- Message role: the union type representing the user, agent and assistant
roles of the Message interface. -/
inductive Role where
  | user
  | agent
  | assistant
deriving DecidableEq, Repr

/-- The Message interface of threadManager.ts: role, optional agentName,
content, optional timestamp. -/
structure Message where
  role : Role
  agentName : Option String
  content : String
  timestamp : Option Nat
deriving DecidableEq, Repr

/-- The fixed thread-key string of threadManager.ts, named THREAD_PREFIX
in the source. -/
def threadKeyStart : String := "aeth_chat_thread_"

/- The browser localStorage model. A stored value is either the
JSON.stringify image of a message list (which JSON.parse inverts), or a
raw string that JSON.parse rejects, modelling corrupt entries. -/

/-- A value held in localStorage: the serialized form of a message list,
or an arbitrary (possibly corrupt) raw string. -/
inductive StoredValue where
  | json (msgs : List Message)
  | raw (s : String)
deriving DecidableEq, Repr

/-- JS truthiness of a stored string value: only the empty raw string is
falsy; a stringified array is never empty. -/
def StoredValue.truthy : StoredValue → Bool
  | .json _ => true
  | .raw s => s ≠ ""

/-- Embeds JSON.parse applied to a stored value, as used by
getMessagesForThread: stringified message lists parse back exactly; a raw
string throws a SyntaxError. -/
def StoredValue.parseMessages : StoredValue → Except String (List Message)
  | .json msgs => .ok msgs
  | .raw _ => .error "SyntaxError"

/-- The browser local key-value store: its entries in insertion order,
plus whether the next write throws a quota-exceeded error. -/
structure LocalStorage where
  entries : List (String × StoredValue)
  quotaExceeded : Bool
deriving DecidableEq, Repr

/-- Key update for localStorage.setItem: replaces the value of an existing
key in place, otherwise appends the new pair. -/
def setEntries : List (String × StoredValue) → String → StoredValue → List (String × StoredValue)
  | [], k, v => [(k, v)]
  | (k', v') :: rest, k, v =>
      if k' = k then (k, v) :: rest else (k', v') :: setEntries rest k v

/-- Embeds localStorage.setItem: throws a QuotaExceededError when the
storage quota is exceeded, otherwise updates the entries. -/
def LocalStorage.setItem (st : LocalStorage) (k : String) (v : StoredValue) :
    Except String LocalStorage :=
  if st.quotaExceeded then .error "QuotaExceededError"
  else .ok ⟨setEntries st.entries k v, st.quotaExceeded⟩

/-- Embeds localStorage.getItem: the value of the key, or null. -/
def LocalStorage.getItem (st : LocalStorage) (k : String) : Option StoredValue :=
  (st.entries.find? (fun e => e.1 == k)).map (fun e => e.2)

/-- Result of one thread-store operation: the value returned to the caller
(or the uncaught exception thrown at them), the storage afterwards, and
the console.error messages emitted during the call. -/
structure OpResult (α : Type) where
  result : Except String α
  store : LocalStorage
  consoleErrors : List String
deriving Repr

/-- Embeds createNewThreadId of threadManager.ts: builds the id from
Date.now() with the fixed key start, writes an empty list under it with no
try/catch, and returns the id. -/
def createNewThreadId (now : Nat) (st : LocalStorage) : OpResult String :=
  let threadId := threadKeyStart ++ toString now
  match st.setItem threadId (.json []) with
  | .ok st' => ⟨.ok threadId, st', []⟩
  | .error e => ⟨.error e, st, []⟩

/-- Embeds saveMessagesToThread of threadManager.ts: returns at once for a
falsy id or one without the thread key start; otherwise writes the
stringified list, catching and logging any storage error. -/
def saveMessagesToThread (threadId : String) (messages : List Message)
    (st : LocalStorage) : OpResult Unit :=
  if threadId = "" ∨ jsStartsWith threadId threadKeyStart = false then ⟨.ok (), st, []⟩
  else
    match st.setItem threadId (.json messages) with
    | .ok st' => ⟨.ok (), st', []⟩
    | .error _ => ⟨.ok (), st, ["Failed to save messages to localStorage:"]⟩

/-- Embeds getMessagesForThread of threadManager.ts: returns the empty
list for a falsy id or one without the thread key start; otherwise reads
and parses the stored value, returning the empty list (and logging) when
the entry is null, falsy, or fails to parse. -/
def getMessagesForThread (threadId : String) (st : LocalStorage) :
    OpResult (List Message) :=
  if threadId = "" ∨ jsStartsWith threadId threadKeyStart = false then ⟨.ok [], st, []⟩
  else
    match st.getItem threadId with
    | none => ⟨.ok [], st, []⟩
    | some v =>
        if v.truthy then
          match v.parseMessages with
          | .ok msgs => ⟨.ok msgs, st, []⟩
          | .error _ =>
              ⟨.ok [], st, ["Failed to retrieve or parse messages from localStorage:"]⟩
        else ⟨.ok [], st, []⟩

/-- Heading chosen for one exported message in formatThreadForExport:
the role decides between the user heading and the agent name with its
fallback. -/
def headingOf (m : Message) : String :=
  if m.role = Role.user then "User Input" else jsOrStr m.agentName "Agent Response"

/-- The markdown block one message contributes in formatThreadForExport. -/
def exportBlock (m : Message) : String :=
  "### " ++ headingOf m ++ "\n" ++ m.content ++ "\n"

/-- Embeds formatThreadForExport of threadManager.ts: a title line from
the id with its key start removed, then the message blocks joined by a
horizontal-rule separator. -/
def formatThreadForExport (threadId : String) (messages : List Message) : String :=
  let title := removeFirst threadId threadKeyStart
  let markdownContent := jsJoin "\n---\n\n" (messages.map exportBlock)
  "# Chat Thread Log: " ++ title ++ "\n\n" ++ markdownContent

example : jsStartsWith "aeth_chat_thread_17" threadKeyStart = true := by decide
example : jsStartsWith "other" threadKeyStart = false := by decide
example : jsSlice "hello" 0 3 = "hel" := by decide
example : jsJoin "," ["a", "b", "c"] = "a,b,c" := rfl
example : removeFirst "aeth_chat_thread_17" threadKeyStart = "17" := by decide

/- A JSON value model for the records handled by the memory-log sink and
the reflection summarizer, with a JSON.stringify embedding. Numbers are
restricted to integers, which covers every number the embedded code
produces (timestamps from Date.now()). -/

/-- The decimal digit character of n mod 10. -/
def decDigitChar (n : Nat) : Char :=
  match n % 10 with
  | 0 => '0' | 1 => '1' | 2 => '2' | 3 => '3' | 4 => '4'
  | 5 => '5' | 6 => '6' | 7 => '7' | 8 => '8' | _ => '9'

/-- The lowercase hexadecimal digit character of n mod 16. -/
def hexDigitChar (n : Nat) : Char :=
  match n % 16 with
  | 0 => '0' | 1 => '1' | 2 => '2' | 3 => '3' | 4 => '4'
  | 5 => '5' | 6 => '6' | 7 => '7' | 8 => '8' | 9 => '9'
  | 10 => 'a' | 11 => 'b' | 12 => 'c' | 13 => 'd' | 14 => 'e' | _ => 'f'

/-- Decimal digits of n, most significant first, with fuel bounding the
recursion depth (fuel n suffices for input n). -/
def natDigitsAux : Nat → Nat → List Char
  | 0, _ => []
  | fuel + 1, n => if n = 0 then [] else natDigitsAux fuel (n / 10) ++ [decDigitChar n]

/-- Decimal numeral of a natural number. -/
def natNumeral (n : Nat) : String :=
  if n = 0 then "0" else String.mk (natDigitsAux n n)

/-- Decimal numeral of an integer, as JSON.stringify prints integral
numbers. -/
def intNumeral (n : Int) : String :=
  if n < 0 then "-" ++ natNumeral n.natAbs else natNumeral n.natAbs

/-- The JSON string escape of one character, as JSON.stringify performs
it: quote, backslash and control characters are escaped, everything else
passes through. -/
def jsonEscapeChar (c : Char) : List Char :=
  if c = '"' then ['\\', '"']
  else if c = '\\' then ['\\', '\\']
  else if c = '\n' then ['\\', 'n']
  else if c = '\r' then ['\\', 'r']
  else if c = '\t' then ['\\', 't']
  else if c.toNat = 8 then ['\\', 'b']
  else if c.toNat = 12 then ['\\', 'f']
  else if c.toNat < 32 then
    ['\\', 'u', '0', '0', hexDigitChar (c.toNat / 16), hexDigitChar (c.toNat % 16)]
  else [c]

/-- A JSON string literal: the escaped characters between double quotes. -/
def jsonQuote (s : String) : String :=
  "\"" ++ String.mk (s.data.map jsonEscapeChar).flatten ++ "\""

/-- JSON values: null, booleans, (integral) numbers, strings, arrays and
objects with ordered fields. -/
inductive Json where
  | null
  | bool (b : Bool)
  | num (n : Int)
  | str (s : String)
  | arr (elems : List Json)
  | obj (fields : List (String × Json))
deriving Repr

/-- Embeds JSON.stringify (compact form, no spacing) on the JSON value
model. -/
def Json.stringify : Json → String
  | .null => "null"
  | .bool true => "true"
  | .bool false => "false"
  | .num n => intNumeral n
  | .str s => jsonQuote s
  | .arr xs => "[" ++ jsJoin "," (xs.attach.map (fun x => Json.stringify x.1)) ++ "]"
  | .obj fs =>
      "\x7b" ++
        jsJoin "," (fs.attach.map (fun f => jsonQuote f.1.1 ++ ":" ++ Json.stringify f.1.2)) ++
      "\x7d"
decreasing_by
  · have h := List.sizeOf_lt_of_mem x.2
    simp
    omega
  · have h1 := List.sizeOf_lt_of_mem f.2
    have h2 : sizeOf (f.1.2) < sizeOf f.1 := by
      obtain ⟨⟨a, b⟩, hm⟩ := f
      simp
    simp
    omega

/- The server-side file model for the memory-log sink: a flat map from
paths to file contents. fs.mkdir with the recursive flag only prepares the
directory and is a no-op in this path-keyed model. -/

/-- The server file system: files by path, in creation order. -/
structure FS where
  files : List (String × String)
deriving DecidableEq, Repr

/-- Content of the file at a path, when it exists. -/
def FS.read (fs : FS) (path : String) : Option String :=
  (fs.files.find? (fun e => e.1 == path)).map (fun e => e.2)

/-- Path update for fs.appendFile: appends to an existing file's content
in place, otherwise creates the file with the chunk as content. -/
def appendEntries : List (String × String) → String → String → List (String × String)
  | [], p, chunk => [(p, chunk)]
  | (p', c') :: rest, p, chunk =>
      if p' = p then (p', c' ++ chunk) :: rest else (p', c') :: appendEntries rest p chunk

/-- Embeds fs.appendFile: append a chunk to the file at a path, creating
it when absent. -/
def FS.appendFile (fs : FS) (path chunk : String) : FS :=
  ⟨appendEntries fs.files path chunk⟩

/-- An HTTP response as NextResponse.json builds it: a status code and a
JSON body. -/
structure HttpResponse where
  status : Nat
  body : Json
deriving Repr

/-- The per-day log file path of the memory-log route; todayISO stands for
the date part of new Date().toISOString(), the current UTC calendar
date. -/
def memoryLogPath (todayISO : String) : String :=
  "logs/MemoryLogs/log_" ++ todayISO ++ ".json"

/-- Embeds the POST handler of src/app/api/memory-log/route.ts: appends
the stringified record plus a newline to the per-day file and answers
with the Logged status object (default HTTP status 200). -/
def memoryLogPOST (fs : FS) (todayISO : String) (logEntry : Json) : FS × HttpResponse :=
  (fs.appendFile (memoryLogPath todayISO) (logEntry.stringify ++ "\n"),
   ⟨200, Json.obj [("status", Json.str "Logged")]⟩)

/-- Embeds the GET handler of the audit route
src/app/api/audit/[threadId]/route.ts: the handler ignores the threadId
route segment and unconditionally answers 501 with a fixed error body. -/
def auditGET (_threadId : String) : HttpResponse :=
  ⟨501, Json.obj [("error", Json.str
    "Thread audit is not available server-side. Please implement client-side or via a persistent API.")]⟩

/- The chat gateway route (chat-with-premier) and its client. -/

/-- One role/content message of the chat-completion request. -/
structure ChatMessage where
  role : String
  content : String
deriving DecidableEq, Repr

/-- The JSON body the chat route destructures: prompt, context (possibly
absent, the JS or-default supplies the empty array) and the agentName
field the client sends but the route never reads. -/
structure ChatRequestBody where
  prompt : String
  context : Option (List ChatMessage)
  agentName : Option String
deriving Repr

/-- The fixed system preamble the chat route injects. -/
def premierSystemContent : String :=
  "You are Premier, the primary agent of AetheroOS, orchestrating Signal Root with introspective reasoning in ASL."

/-- Embeds the messages array the chat route POST handler builds: the
system preamble, the spread context (or-defaulted to empty), then the
prompt as a user message. -/
def chatUpstreamMessages (body : ChatRequestBody) : List ChatMessage :=
  ⟨"system", premierSystemContent⟩ :: (body.context.getD [] ++ [⟨"user", body.prompt⟩])

/-- The request the chat route sends upstream: fixed model gpt-4o, the
messages array, temperature 0.7 (modelled in tenths) and max_tokens
1000. -/
structure UpstreamRequest where
  model : String
  messages : List ChatMessage
  temperatureTenths : Nat
  maxTokens : Nat
deriving Repr

/-- Embeds the openai.chat.completions.create call of the chat route. -/
def chatPOSTUpstreamRequest (body : ChatRequestBody) : UpstreamRequest :=
  ⟨"gpt-4o", chatUpstreamMessages body, 7, 1000⟩

/-- Embeds the fetch body handleSend of AgentChat.tsx sends to the chat
route: prompt, the thread-derived context, and the active agent's name. -/
def clientChatBody (prompt : String) (context : List ChatMessage) (agent : String) :
    ChatRequestBody :=
  ⟨prompt, some context, some agent⟩

/- The reflection summarizer of src/lib/aslParser.ts. -/

/-- The summary object runIntrospectiveAnalysis builds for one
prompt/response pair: truncated excerpts and the fixed placeholder
aslOutput tag. -/
def summaryEntry (p r : String) : Json :=
  Json.obj [
    ("intent", Json.str ("Analyzed: " ++ jsSlice p 0 50 ++ "...")),
    ("reasoning", Json.str ("Response: " ++ jsSlice r 0 50 ++ "...")),
    ("aslOutput", Json.obj [
      ("module", Json.str "PremierChat"),
      ("action", Json.str "reflect"),
      ("purpose", Json.str "Introspective synthesis")])]

/-- Embeds runIntrospectiveAnalysis of aslParser.ts: map the pairs to
summary objects and return the JSON.stringify of the resulting array. -/
def runIntrospectiveAnalysis (thread : List (String × String)) : String :=
  Json.stringify (Json.arr (thread.map (fun pr => summaryEntry pr.1 pr.2)))

example : intNumeral (-105) = "-105" := by decide
example : jsonQuote "a\nb" = "\"a\\nb\"" := by decide

/- Helper lemmas about the JS string primitives and the stores. -/

theorem isPrefixOf_self_append (l t : List Char) : l.isPrefixOf (l ++ t) = true := by
  rw [List.isPrefixOf_iff_prefix]
  exact ⟨t, rfl⟩

theorem jsStartsWith_self_append (p s : String) : jsStartsWith (p ++ s) p = true := by
  unfold jsStartsWith
  rw [String.data_append]
  exact isPrefixOf_self_append _ _

theorem ne_empty_of_starts (tid : String)
    (h : jsStartsWith tid threadKeyStart = true) : ¬ tid = "" := by
  intro he
  subst he
  exact absurd h (by decide)

theorem find?_setEntries (l : List (String × StoredValue)) (k : String) (v : StoredValue) :
    (setEntries l k v).find? (fun e => e.1 == k) = some (k, v) := by
  induction l with
  | nil => simp [setEntries]
  | cons hd tl ih =>
      obtain ⟨k', v'⟩ := hd
      by_cases hk : k' = k
      · subst hk
        simp [setEntries]
      · simp [setEntries, hk, ih]

theorem getItem_after_set (entries : List (String × StoredValue)) (q : Bool)
    (k : String) (v : StoredValue) :
    (LocalStorage.mk (setEntries entries k v) q).getItem k = some v := by
  simp [LocalStorage.getItem, find?_setEntries]

/-- C1: saving a message list to a thread id that carries the thread key
start and reading the same id back returns exactly that list, in order,
provided the underlying storage is not out of quota. -/
theorem thread_roundtrip (threadId : String) (msgs : List Message) (st : LocalStorage)
    (hpre : jsStartsWith threadId threadKeyStart = true)
    (hq : st.quotaExceeded = false) :
    (getMessagesForThread threadId
      ((saveMessagesToThread threadId msgs st).store)).result = .ok msgs := by
  have hne : ¬ threadId = "" := ne_empty_of_starts threadId hpre
  have hg : ¬ (threadId = "" ∨ jsStartsWith threadId threadKeyStart = false) := by
    simp [hne, hpre]
  unfold saveMessagesToThread
  rw [if_neg hg]
  unfold LocalStorage.setItem
  rw [hq]
  simp only [Bool.false_eq_true, if_false]
  unfold getMessagesForThread
  rw [if_neg hg]
  rw [getItem_after_set]
  rfl

/-- Witness for thread_roundtrip: a concrete user message followed by an
agent reply comes back in send order. -/
theorem thread_roundtrip_witness :
    (getMessagesForThread (threadKeyStart ++ "1")
      ((saveMessagesToThread (threadKeyStart ++ "1")
        [⟨Role.user, none, "hi", some 5⟩, ⟨Role.agent, some "Premier", "hello", some 6⟩]
        ⟨[], false⟩).store)).result =
      .ok [⟨Role.user, none, "hi", some 5⟩, ⟨Role.agent, some "Premier", "hello", some 6⟩] :=
  thread_roundtrip (threadKeyStart ++ "1")
    [⟨Role.user, none, "hi", some 5⟩, ⟨Role.agent, some "Premier", "hello", some 6⟩]
    ⟨[], false⟩ (by decide) rfl

/-- C6: createNewThreadId returns the id built from the fixed thread key
start and the current time, and reading that thread immediately
afterwards returns the empty message list (storage quota permitting). -/
theorem create_then_read (now : Nat) (st : LocalStorage)
    (hq : st.quotaExceeded = false) :
    (createNewThreadId now st).result = .ok (threadKeyStart ++ toString now) ∧
    (getMessagesForThread (threadKeyStart ++ toString now)
      ((createNewThreadId now st).store)).result = .ok [] := by
  have hpre : jsStartsWith (threadKeyStart ++ toString now) threadKeyStart = true :=
    jsStartsWith_self_append _ _
  have hne : ¬ threadKeyStart ++ toString now = "" := ne_empty_of_starts _ hpre
  have hg : ¬ (threadKeyStart ++ toString now = "" ∨
      jsStartsWith (threadKeyStart ++ toString now) threadKeyStart = false) := by
    simp [hne, hpre]
  unfold createNewThreadId LocalStorage.setItem
  rw [hq]
  simp only [Bool.false_eq_true, if_false]
  refine ⟨by trivial, ?_⟩
  unfold getMessagesForThread
  rw [if_neg hg]
  rw [getItem_after_set]
  rfl

/-- Witness for create_then_read at a concrete clock value and empty
storage. -/
theorem create_then_read_witness :
    (createNewThreadId 1717200000000 ⟨[], false⟩).result =
      .ok (threadKeyStart ++ toString 1717200000000) ∧
    (getMessagesForThread (threadKeyStart ++ toString 1717200000000)
      ((createNewThreadId 1717200000000 ⟨[], false⟩).store)).result = .ok [] :=
  create_then_read 1717200000000 ⟨[], false⟩ rfl

/-- C9: for an empty thread id or one without the thread key start,
saveMessagesToThread leaves the store untouched, returns silently and
logs nothing, and getMessagesForThread answers the empty list for every
store whatsoever without reading it. -/
theorem invalid_id_noop (threadId : String) (msgs : List Message) (st : LocalStorage)
    (h : threadId = "" ∨ jsStartsWith threadId threadKeyStart = false) :
    saveMessagesToThread threadId msgs st = ⟨.ok (), st, []⟩ ∧
    getMessagesForThread threadId st = ⟨.ok [], st, []⟩ := by
  constructor
  · unfold saveMessagesToThread
    rw [if_pos h]
  · unfold getMessagesForThread
    rw [if_pos h]

/-- Witness for invalid_id_noop: a non-thread key is a no-op even on a
populated, quota-exhausted store. -/
theorem invalid_id_noop_witness :
    saveMessagesToThread "bogus" [⟨Role.user, none, "x", none⟩]
      ⟨[(threadKeyStart ++ "1", .json [])], true⟩ =
      ⟨.ok (), ⟨[(threadKeyStart ++ "1", .json [])], true⟩, []⟩ ∧
    getMessagesForThread "bogus" ⟨[(threadKeyStart ++ "1", .json [])], true⟩ =
      ⟨.ok [], ⟨[(threadKeyStart ++ "1", .json [])], true⟩, []⟩ :=
  invalid_id_noop "bogus" [⟨Role.user, none, "x", none⟩]
    ⟨[(threadKeyStart ++ "1", .json [])], true⟩ (Or.inr (by decide))

/-- C2 counterexample: on a quota-exhausted store, createNewThreadId does
not catch the storage failure: the QuotaExceededError is thrown to the
caller and nothing is logged to the console. -/
theorem create_throws_on_quota :
    (createNewThreadId 0 ⟨[], true⟩).result = .error "QuotaExceededError" ∧
    (createNewThreadId 0 ⟨[], true⟩).consoleErrors = [] := by
  exact ⟨rfl, rfl⟩

/-- C2 (amended): the save and read operations never throw: save always
returns unit and logs the storage failure to the console when the quota
is exhausted on a valid id, and read always returns a list, answering the
empty list and logging when the stored entry fails to parse; thread
creation is not so shielded. -/
theorem save_read_shielded (threadId : String) (msgs : List Message) (st : LocalStorage) :
    (saveMessagesToThread threadId msgs st).result = .ok () ∧
    (∃ l, (getMessagesForThread threadId st).result = .ok l) ∧
    (jsStartsWith threadId threadKeyStart = true → st.quotaExceeded = true →
      (saveMessagesToThread threadId msgs st).consoleErrors =
        ["Failed to save messages to localStorage:"]) ∧
    (∀ s, jsStartsWith threadId threadKeyStart = true → ¬ s = "" →
      st.getItem threadId = some (.raw s) →
      (getMessagesForThread threadId st).result = .ok [] ∧
      (getMessagesForThread threadId st).consoleErrors =
        ["Failed to retrieve or parse messages from localStorage:"]) := by
  by_cases hg : threadId = "" ∨ jsStartsWith threadId threadKeyStart = false
  · have hnostart : ¬ jsStartsWith threadId threadKeyStart = true := by
      rcases hg with he | hf
      · subst he
        decide
      · simp [hf]
    refine ⟨?_, ⟨[], ?_⟩, ?_, ?_⟩
    · unfold saveMessagesToThread
      rw [if_pos hg]
    · unfold getMessagesForThread
      rw [if_pos hg]
    · intro hpre
      exact absurd hpre hnostart
    · intro s hpre
      exact absurd hpre hnostart
  · refine ⟨?_, ?_, ?_, ?_⟩
    · unfold saveMessagesToThread
      rw [if_neg hg]
      unfold LocalStorage.setItem
      by_cases hq : st.quotaExceeded
      · rw [if_pos hq]
      · rw [if_neg hq]
    · unfold getMessagesForThread
      rw [if_neg hg]
      rcases hv : st.getItem threadId with _ | v
      · exact ⟨[], rfl⟩
      · rcases v with msgs' | s
        · exact ⟨msgs', rfl⟩
        · by_cases hs : (StoredValue.raw s).truthy
          · refine ⟨[], ?_⟩
            simp [hs, StoredValue.parseMessages]
          · refine ⟨[], ?_⟩
            simp [hs]
    · intro _ hq
      unfold saveMessagesToThread
      rw [if_neg hg]
      unfold LocalStorage.setItem
      rw [if_pos hq]
    · intro s _ hs hv
      unfold getMessagesForThread
      rw [if_neg hg, hv]
      have ht : (StoredValue.raw s).truthy = true := by
        simp [StoredValue.truthy, hs]
      simp [ht, StoredValue.parseMessages]

/-- Witness for save_read_shielded: a quota-exhausted store holding a
corrupt entry; save returns unit and logs, read returns the empty list
and logs. -/
theorem save_read_shielded_witness :
    (saveMessagesToThread (threadKeyStart ++ "1") []
      ⟨[(threadKeyStart ++ "1", .raw "oops")], true⟩).result = .ok () ∧
    (saveMessagesToThread (threadKeyStart ++ "1") []
      ⟨[(threadKeyStart ++ "1", .raw "oops")], true⟩).consoleErrors =
      ["Failed to save messages to localStorage:"] ∧
    (getMessagesForThread (threadKeyStart ++ "1")
      ⟨[(threadKeyStart ++ "1", .raw "oops")], true⟩).result = .ok [] ∧
    (getMessagesForThread (threadKeyStart ++ "1")
      ⟨[(threadKeyStart ++ "1", .raw "oops")], true⟩).consoleErrors =
      ["Failed to retrieve or parse messages from localStorage:"] := by
  have h := save_read_shielded (threadKeyStart ++ "1") []
    ⟨[(threadKeyStart ++ "1", .raw "oops")], true⟩
  refine ⟨h.1, h.2.2.1 (by decide) rfl, ?_, ?_⟩
  · exact (h.2.2.2 "oops" (by decide) (by decide) (by decide)).1
  · exact (h.2.2.2 "oops" (by decide) (by decide) (by decide)).2

/- Decomposition devices for the export format: the exported text is an
interleaving of glue strings (headings, separators, the title line) with
the message contents, each content appearing as one designated segment,
in list order. -/

/-- Interleaving of n+1 glue strings around n contents:
g0 ++ c1 ++ g1 ++ ... ++ cn ++ gn. -/
def alternation : List String → List String → String
  | [g], [] => g
  | g :: gs, c :: cs => g ++ (c ++ alternation gs cs)
  | _, _ => ""

/-- Glue piece between one content and the next: it closes the previous
block, writes the thread separator and opens the next heading. -/
def exportGlueTail : List Message → List String
  | [] => ["\n"]
  | m :: rest =>
      ("\n" ++ ("\n---\n\n" ++ ("### " ++ (headingOf m ++ "\n")))) :: exportGlueTail rest

/-- All glue pieces of one export: the title line fused with the first
heading, then the inter-content pieces. -/
def exportGlue (threadId : String) : List Message → List String
  | [] => ["# Chat Thread Log: " ++ removeFirst threadId threadKeyStart ++ "\n\n"]
  | m :: rest =>
      ("# Chat Thread Log: " ++ (removeFirst threadId threadKeyStart ++
        ("\n\n" ++ ("### " ++ (headingOf m ++ "\n"))))) :: exportGlueTail rest

/-- The joined blocks of all messages after the first, with the leading
separator, or empty when there are none. -/
def sepTail : List Message → String
  | [] => ""
  | m :: rest => "\n---\n\n" ++ jsJoin "\n---\n\n" ((m :: rest).map exportBlock)

theorem exportGlueTail_length (msgs : List Message) :
    (exportGlueTail msgs).length = msgs.length + 1 := by
  induction msgs with
  | nil => rfl
  | cons m rest ih => simp [exportGlueTail, ih]

theorem join_blocks (m : Message) (rest : List Message) :
    jsJoin "\n---\n\n" ((m :: rest).map exportBlock) = exportBlock m ++ sepTail rest := by
  cases rest with
  | nil => simp [jsJoin, sepTail]
  | cons r rs => simp [jsJoin, sepTail, String.append_assoc]

theorem alt_glueTail (msgs : List Message) :
    alternation (exportGlueTail msgs) (msgs.map (fun m => m.content)) =
      "\n" ++ sepTail msgs := by
  induction msgs with
  | nil => simp [exportGlueTail, alternation, sepTail]
  | cons m rest ih =>
      show alternation
          (("\n" ++ ("\n---\n\n" ++ ("### " ++ (headingOf m ++ "\n")))) :: exportGlueTail rest)
          (m.content :: rest.map (fun x => x.content)) = _
      rw [alternation, ih, sepTail, join_blocks]
      simp [exportBlock, String.append_assoc]

/-- C7: the export of a thread is the interleaving of glue strings with
the message contents: every message's content appears exactly once as its
own segment, in the original list order, with one glue piece (heading,
separator or title material) before, between and after the contents. -/
theorem export_contents_once (threadId : String) (messages : List Message) :
    (exportGlue threadId messages).length = messages.length + 1 ∧
    formatThreadForExport threadId messages =
      alternation (exportGlue threadId messages)
        (messages.map (fun m => m.content)) := by
  cases messages with
  | nil =>
      refine ⟨rfl, ?_⟩
      simp [formatThreadForExport, exportGlue, alternation, jsJoin]
  | cons m rest =>
      constructor
      · simp [exportGlue, exportGlueTail_length]
      · show formatThreadForExport threadId (m :: rest) =
          alternation
            (("# Chat Thread Log: " ++ (removeFirst threadId threadKeyStart ++
              ("\n\n" ++ ("### " ++ (headingOf m ++ "\n"))))) :: exportGlueTail rest)
            (m.content :: rest.map (fun x => x.content))
        rw [alternation, alt_glueTail]
        unfold formatThreadForExport
        rw [join_blocks]
        simp [exportBlock, String.append_assoc]

/- No serialized JSON value contains a raw newline: JSON.stringify
escapes control characters, so each appended log record occupies exactly
one newline-terminated line. -/

theorem decDigitChar_ne_nl (n : Nat) : ¬ decDigitChar n = '\n' := by
  unfold decDigitChar
  split <;> decide

theorem hexDigitChar_ne_nl (n : Nat) : ¬ hexDigitChar n = '\n' := by
  unfold hexDigitChar
  split <;> decide

theorem nl_not_mem_natDigitsAux (fuel : Nat) : ∀ n, '\n' ∉ natDigitsAux fuel n := by
  induction fuel with
  | zero => intro n; simp [natDigitsAux]
  | succ f ih =>
      intro n
      unfold natDigitsAux
      by_cases h : n = 0
      · simp [h]
      · rw [if_neg h]
        intro hmem
        rcases List.mem_append.mp hmem with h1 | h2
        · exact ih _ h1
        · simp at h2
          exact decDigitChar_ne_nl n h2.symm

theorem nl_not_mem_natNumeral (n : Nat) : '\n' ∉ (natNumeral n).data := by
  unfold natNumeral
  split
  · decide
  · exact nl_not_mem_natDigitsAux n n

theorem nl_not_mem_intNumeral (n : Int) : '\n' ∉ (intNumeral n).data := by
  unfold intNumeral
  split
  · rw [String.data_append]
    intro hmem
    rcases List.mem_append.mp hmem with h1 | h2
    · exact absurd h1 (by decide)
    · exact nl_not_mem_natNumeral _ h2
  · exact nl_not_mem_natNumeral _

theorem nl_not_mem_escape (c : Char) : '\n' ∉ jsonEscapeChar c := by
  intro hmem
  unfold jsonEscapeChar at hmem
  repeat' split at hmem
  all_goals try simp_all
  all_goals
    first
    | (rcases hmem with h | h <;> exact hexDigitChar_ne_nl _ h.symm)
    | (exact absurd hmem.symm (by assumption))

theorem nl_not_mem_jsonQuote (s : String) : '\n' ∉ (jsonQuote s).data := by
  unfold jsonQuote
  rw [String.data_append, String.data_append]
  intro hmem
  rcases List.mem_append.mp hmem with h1 | h2
  · rcases List.mem_append.mp h1 with h0 | hmid
    · exact absurd h0 (by decide)
    · rcases List.mem_flatten.mp hmid with ⟨l, hl, hc⟩
      rcases List.mem_map.mp hl with ⟨c, _, rfl⟩
      exact nl_not_mem_escape c hc
  · exact absurd h2 (by decide)

theorem nl_not_mem_jsJoin (sep : String) (l : List String)
    (hsep : '\n' ∉ sep.data) (hl : ∀ s ∈ l, '\n' ∉ s.data) :
    '\n' ∉ (jsJoin sep l).data := by
  induction l with
  | nil => simp [jsJoin]
  | cons x xs ih =>
      cases xs with
      | nil => exact hl x (by simp)
      | cons y ys =>
          show '\n' ∉ (x ++ sep ++ jsJoin sep (y :: ys)).data
          rw [String.data_append, String.data_append]
          intro hmem
          rcases List.mem_append.mp hmem with h1 | h2
          · rcases List.mem_append.mp h1 with hx | hs
            · exact hl x (by simp) hx
            · exact hsep hs
          · exact ih (fun s hs' => hl s (List.mem_cons_of_mem x hs')) h2

theorem nl_not_mem_stringify (j : Json) : '\n' ∉ (Json.stringify j).data := by
  suffices h : ∀ n (j : Json), sizeOf j ≤ n → '\n' ∉ (Json.stringify j).data from
    h (sizeOf j) j le_rfl
  intro n
  induction n with
  | zero =>
      intro j hj
      exfalso
      cases j <;> simp at hj
  | succ n ih =>
      intro j hj
      cases j with
      | null => simp only [Json.stringify]; decide
      | bool b => cases b <;> (simp only [Json.stringify]; decide)
      | num k => simp only [Json.stringify]; exact nl_not_mem_intNumeral k
      | str s => simp only [Json.stringify]; exact nl_not_mem_jsonQuote s
      | arr xs =>
          simp only [Json.stringify]
          rw [String.data_append, String.data_append]
          intro hmem
          rcases List.mem_append.mp hmem with h1 | h2
          · rcases List.mem_append.mp h1 with hb | hj'
            · exact absurd hb (by decide)
            · refine nl_not_mem_jsJoin "," _ (by decide) ?_ hj'
              intro s hs
              rcases List.mem_map.mp hs with ⟨x, _, rfl⟩
              have hsz : sizeOf x.1 < sizeOf (Json.arr xs) := by
                have hm := List.sizeOf_lt_of_mem x.2
                simp
                omega
              exact ih x.1 (by omega)
          · exact absurd h2 (by decide)
      | obj fs =>
          simp only [Json.stringify]
          rw [String.data_append, String.data_append]
          intro hmem
          rcases List.mem_append.mp hmem with h1 | h2
          · rcases List.mem_append.mp h1 with hb | hj'
            · exact absurd hb (by decide)
            · refine nl_not_mem_jsJoin "," _ (by decide) ?_ hj'
              intro s hs
              rcases List.mem_map.mp hs with ⟨f, _, rfl⟩
              rw [String.data_append, String.data_append]
              intro hmem'
              rcases List.mem_append.mp hmem' with ha | hv
              · rcases List.mem_append.mp ha with hq | hcolon
                · exact nl_not_mem_jsonQuote f.1.1 hq
                · exact absurd hcolon (by decide)
              · have hsz : sizeOf f.1.2 < sizeOf (Json.obj fs) := by
                  have hm := List.sizeOf_lt_of_mem f.2
                  have h2' : sizeOf (f.1.2) < sizeOf f.1 := by
                    obtain ⟨⟨a, b⟩, hmm⟩ := f
                    simp
                  simp
                  omega
                exact ih f.1.2 (by omega) hv
          · exact absurd h2 (by decide)

/-- Number of newline-terminated lines of a file content. -/
def lineCount (s : String) : Nat := s.data.count '\n'

theorem lineCount_append (a b : String) :
    lineCount (a ++ b) = lineCount a + lineCount b := by
  unfold lineCount
  rw [String.data_append, List.count_append]

theorem lineCount_record (e : Json) : lineCount (Json.stringify e ++ "\n") = 1 := by
  rw [lineCount_append]
  have h0 : lineCount (Json.stringify e) = 0 :=
    List.count_eq_zero.mpr (nl_not_mem_stringify e)
  rw [h0]
  rfl

theorem read_append_entries (files : List (String × String)) (p chunk : String) :
    (FS.mk (appendEntries files p chunk)).read p =
      some (((FS.mk files).read p).getD "" ++ chunk) := by
  induction files with
  | nil => simp [FS.read, appendEntries, String.empty_append]
  | cons hd tl ih =>
      obtain ⟨p', c'⟩ := hd
      by_cases hp : p' = p
      · subst hp
        simp [FS.read, appendEntries]
      · simp only [FS.read, appendEntries, if_neg hp] at ih ⊢
        simpa [List.find?_cons, hp] using ih

theorem read_appendFile (fs : FS) (p chunk : String) :
    (fs.appendFile p chunk).read p = some ((fs.read p).getD "" ++ chunk) :=
  read_append_entries fs.files p chunk

/-- C4: each POST to the memory-log route answers with the Logged status
object and appends the stringified record plus exactly one terminating
newline to the file named by the current UTC date: the file grows by one
line per record (stringified records contain no raw newline), so two
records posted the same day add two lines to the same file. -/
theorem memory_log_two_records (fs : FS) (todayISO : String) (e₁ e₂ : Json) :
    (memoryLogPOST fs todayISO e₁).2 = ⟨200, Json.obj [("status", Json.str "Logged")]⟩ ∧
    (memoryLogPOST (memoryLogPOST fs todayISO e₁).1 todayISO e₂).2 =
      ⟨200, Json.obj [("status", Json.str "Logged")]⟩ ∧
    ((memoryLogPOST fs todayISO e₁).1).read (memoryLogPath todayISO) =
      some ((fs.read (memoryLogPath todayISO)).getD "" ++ (Json.stringify e₁ ++ "\n")) ∧
    lineCount ((((memoryLogPOST fs todayISO e₁).1).read (memoryLogPath todayISO)).getD "") =
      lineCount ((fs.read (memoryLogPath todayISO)).getD "") + 1 ∧
    ((memoryLogPOST (memoryLogPOST fs todayISO e₁).1 todayISO e₂).1).read
        (memoryLogPath todayISO) =
      some (((fs.read (memoryLogPath todayISO)).getD "" ++ (Json.stringify e₁ ++ "\n")) ++
        (Json.stringify e₂ ++ "\n")) ∧
    lineCount ((((memoryLogPOST (memoryLogPOST fs todayISO e₁).1 todayISO e₂).1).read
        (memoryLogPath todayISO)).getD "") =
      lineCount ((fs.read (memoryLogPath todayISO)).getD "") + 2 := by
  have h1 : ((memoryLogPOST fs todayISO e₁).1).read (memoryLogPath todayISO) =
      some ((fs.read (memoryLogPath todayISO)).getD "" ++ (Json.stringify e₁ ++ "\n")) :=
    read_appendFile fs (memoryLogPath todayISO) (Json.stringify e₁ ++ "\n")
  have h2 : ((memoryLogPOST (memoryLogPOST fs todayISO e₁).1 todayISO e₂).1).read
      (memoryLogPath todayISO) =
      some (((fs.read (memoryLogPath todayISO)).getD "" ++ (Json.stringify e₁ ++ "\n")) ++
        (Json.stringify e₂ ++ "\n")) := by
    have h := read_appendFile (memoryLogPOST fs todayISO e₁).1 (memoryLogPath todayISO)
      (Json.stringify e₂ ++ "\n")
    rw [h1] at h
    exact h
  refine ⟨rfl, rfl, h1, ?_, h2, ?_⟩
  · rw [h1]
    simp only [Option.getD_some]
    rw [lineCount_append, lineCount_record]
  · rw [h2]
    simp only [Option.getD_some]
    rw [lineCount_append, lineCount_append, lineCount_record, lineCount_record]

/-- C5: the audit route answers HTTP 501 with the fixed explanatory error
body for every thread id, and nothing else: the handler is a constant,
side-effect-free function of the route parameter. -/
theorem audit_always_501 (threadId : String) :
    (auditGET threadId).status = 501 ∧
    auditGET threadId = ⟨501, Json.obj [("error", Json.str
      "Thread audit is not available server-side. Please implement client-side or via a persistent API.")]⟩ ∧
    (∀ tid', auditGET threadId = auditGET tid') :=
  ⟨rfl, rfl, fun _ => rfl⟩

/-- C3: for every chat gateway request body, empty context included, the
upstream message array starts with the fixed system preamble, continues
with the context pairs, and ends with the caller's prompt as the final
user message; the request sent upstream carries exactly this array. -/
theorem chat_gateway_messages (body : ChatRequestBody) :
    chatUpstreamMessages body =
      ChatMessage.mk "system" premierSystemContent ::
        (body.context.getD [] ++ [ChatMessage.mk "user" body.prompt]) ∧
    (chatUpstreamMessages body).head? =
      some (ChatMessage.mk "system" premierSystemContent) ∧
    (chatUpstreamMessages body).getLast? = some (ChatMessage.mk "user" body.prompt) ∧
    (chatPOSTUpstreamRequest body).messages = chatUpstreamMessages body :=
  ⟨rfl, rfl,
    List.getLast?_concat (ChatMessage.mk "system" premierSystemContent :: body.context.getD []),
    rfl⟩

/-- C10: the upstream request of the chat route is independent of the
agentName the client sends: two bodies agreeing on prompt and context
yield identical upstream requests, the system preamble names Premier, and
the client does send a per-agent agentName that the route never reads. -/
theorem agent_name_noninterference (b₁ b₂ : ChatRequestBody)
    (hp : b₁.prompt = b₂.prompt) (hc : b₁.context = b₂.context) :
    chatPOSTUpstreamRequest b₁ = chatPOSTUpstreamRequest b₂ ∧
    "Premier".data <:+: premierSystemContent.data ∧
    (∀ p c a, (clientChatBody p c a).agentName = some a) := by
  refine ⟨?_, by decide, fun _ _ _ => rfl⟩
  unfold chatPOSTUpstreamRequest chatUpstreamMessages
  rw [hp, hc]

/-- C8: runIntrospectiveAnalysis returns the JSON serialization of an
array with one object per input pair, in input order; each object's
intent and reasoning embed excerpts that are prefixes of the pair's
prompt and response of at most 50 characters, and each carries the same
fixed placeholder aslOutput tag. -/
theorem introspective_summary_shape (thread : List (String × String)) :
    ∃ entries : List Json,
      runIntrospectiveAnalysis thread = Json.stringify (Json.arr entries) ∧
      entries.length = thread.length ∧
      ∀ i (hi : i < thread.length) (hi' : i < entries.length),
        ∃ pexc rexc : String,
          pexc.data <+: (thread.get ⟨i, hi⟩).1.data ∧
          rexc.data <+: (thread.get ⟨i, hi⟩).2.data ∧
          pexc.length ≤ 50 ∧ rexc.length ≤ 50 ∧
          entries.get ⟨i, hi'⟩ = Json.obj [
            ("intent", Json.str ("Analyzed: " ++ pexc ++ "...")),
            ("reasoning", Json.str ("Response: " ++ rexc ++ "...")),
            ("aslOutput", Json.obj [
              ("module", Json.str "PremierChat"),
              ("action", Json.str "reflect"),
              ("purpose", Json.str "Introspective synthesis")])] := by
  refine ⟨thread.map (fun pr : String × String => summaryEntry pr.1 pr.2), rfl, by simp, ?_⟩
  intro i hi hi'
  refine ⟨jsSlice (thread.get ⟨i, hi⟩).1 0 50, jsSlice (thread.get ⟨i, hi⟩).2 0 50,
    ?_, ?_, ?_, ?_, ?_⟩
  · show ((thread.get ⟨i, hi⟩).1.data.drop 0).take (50 - 0) <+: _
    rw [List.drop_zero]
    exact List.take_prefix _ _
  · show ((thread.get ⟨i, hi⟩).2.data.drop 0).take (50 - 0) <+: _
    rw [List.drop_zero]
    exact List.take_prefix _ _
  · show (((thread.get ⟨i, hi⟩).1.data.drop 0).take (50 - 0)).length ≤ 50
    rw [List.length_take]
    exact min_le_left _ _
  · show (((thread.get ⟨i, hi⟩).2.data.drop 0).take (50 - 0)).length ≤ 50
    rw [List.length_take]
    exact min_le_left _ _
  · rw [List.get_eq_getElem, List.getElem_map]
    rfl

/-- Witness for introspective_summary_shape at a concrete one-pair
thread. -/
theorem introspective_summary_shape_witness :
    ∃ entries : List Json,
      runIntrospectiveAnalysis [("p1", "r1")] = Json.stringify (Json.arr entries) ∧
      entries.length = ([("p1", "r1")] : List (String × String)).length ∧
      ∀ i (hi : i < ([("p1", "r1")] : List (String × String)).length)
        (hi' : i < entries.length),
        ∃ pexc rexc : String,
          pexc.data <+: (([("p1", "r1")] : List (String × String)).get ⟨i, hi⟩).1.data ∧
          rexc.data <+: (([("p1", "r1")] : List (String × String)).get ⟨i, hi⟩).2.data ∧
          pexc.length ≤ 50 ∧ rexc.length ≤ 50 ∧
          entries.get ⟨i, hi'⟩ = Json.obj [
            ("intent", Json.str ("Analyzed: " ++ pexc ++ "...")),
            ("reasoning", Json.str ("Response: " ++ rexc ++ "...")),
            ("aslOutput", Json.obj [
              ("module", Json.str "PremierChat"),
              ("action", Json.str "reflect"),
              ("purpose", Json.str "Introspective synthesis")])] :=
  introspective_summary_shape [("p1", "r1")]

/-- Witness for agent_name_noninterference: two concrete bodies differing
only in agentName produce the same upstream request. -/
theorem agent_name_noninterference_witness :
    chatPOSTUpstreamRequest ⟨"hello", some [⟨"user", "prev"⟩, ⟨"assistant", "re"⟩], some "Frontinus"⟩ =
      chatPOSTUpstreamRequest ⟨"hello", some [⟨"user", "prev"⟩, ⟨"assistant", "re"⟩], some "Lucius"⟩ ∧
    "Premier".data <:+: premierSystemContent.data ∧
    (∀ p c a, (clientChatBody p c a).agentName = some a) :=
  agent_name_noninterference
    ⟨"hello", some [⟨"user", "prev"⟩, ⟨"assistant", "re"⟩], some "Frontinus"⟩
    ⟨"hello", some [⟨"user", "prev"⟩, ⟨"assistant", "re"⟩], some "Lucius"⟩ rfl rfl
